import Mathlib

/-!
Shallow embedding of the ingestion-and-deduplication engine of the
ai-meeting-notes-agent repository, and proofs about it.

Modelled modules:
* `DriveWatcher` — `src/drive_watcher.py` (FileTracker ledger, stability
  probe, local scanner, watch-loop cycle).
* `ZoomClient` — `src/server/src/zoom/client.py` (token refresh,
  `_ensure_token`, `_api_get`, `get_meeting_transcript`).
* `ZoomPoller` — `src/server/src/zoom/poller.py` (`_sanitize_filename`
  and the per-meeting body of `zoom_poll_loop`).
* `TelegramBot` — `src/telegram_bot.py` (`_sync_s3_prefix_to_local`,
  `_sync_local_to_s3_prefix`).

External effects are passed in explicitly: filesystem size reads become
`Option Nat` (None = OSError), HTTP responses become explicit response
values, the durable tracker store becomes a `Store` value, and directory
listings / S3 listings become association lists keyed by path.
-/

namespace DriveWatcher

/-- One value of the `FileTracker.processed` dict: the JSON object written
for a path by `mark_processed` (a timestamp string and a success flag). -/
structure Entry where
  timestamp : String
  success : Bool
deriving DecidableEq

/-- The in-memory `FileTracker.processed` mapping, as an association list
with unique keys (Python dict keyed by absolute file path). -/
abbrev Tracker := List (String × Entry)

/-- Python dict lookup over an association list: first binding wins. -/
def alookup {β : Type} : List (String × β) → String → Option β
  | [], _ => none
  | (k, v) :: rest, p => if k = p then some v else alookup rest p

/-- Python dict assignment `d[p] = e`: replace the existing binding for
`p` in place, else append a new binding. -/
def upsert : Tracker → String → Entry → Tracker
  | [], p, e => [(p, e)]
  | (k, v) :: rest, p, e => if k = p then (p, e) :: rest else (k, v) :: upsert rest p e

/-- The durable tracker file (`processed_files.json`) as the code sees it:
missing, unreadable (OSError on read), corrupt (JSONDecodeError), or a
well-formed mapping. `FileTracker._save` is the only writer and always
writes the serialized mapping, so a well-formed store carries a `Tracker`. -/
inductive Store
  | absent
  | unreadable
  | corrupt
  | valid (entries : Tracker)
deriving DecidableEq

/-- `FileTracker._load` (run by the constructor): a missing path leaves the
initial empty dict; read or parse failures are caught and leave the empty
dict; otherwise the stored mapping is loaded. Total — construction never
raises. -/
def load : Store → Tracker
  | Store.valid m => m
  | _ => []

/-- `FileTracker.is_processed`: membership of the path in the dict. -/
def is_processed (tr : Tracker) (p : String) : Bool :=
  (alookup tr p).isSome

/-- `FileTracker.mark_processed`: upsert the entry, then `_save`
(write-through); returns the new in-memory dict and the new durable store. -/
def mark_processed (tr : Tracker) (p ts : String) (s : Bool) : Tracker × Store :=
  let u := upsert tr p ⟨ts, s⟩
  (u, Store.valid u)

/-- Final path component (`Path(p).name`): the characters after the last
slash. -/
def finalComponent (p : String) : String :=
  String.mk ((p.toList.reverse.takeWhile (fun c => c ≠ '/')).reverse)

/-- `Path(p).suffix`: the substring of the final component from its last
dot, empty when there is no dot, when the only dot is leading (hidden
file), or when the dot is the final character. -/
def pySuffix (p : String) : String :=
  let name := (finalComponent p).toList
  if name.contains '.' then
    let afterDot := (name.reverse.takeWhile (fun c => c ≠ '.')).reverse
    let i := name.length - 1 - afterDot.length
    if 0 < i ∧ i + 1 < name.length then String.mk ('.' :: afterDot) else ""
  else ""

/-- `SUPPORTED_EXTENSIONS` from `drive_watcher.py`. -/
def SUPPORTED_EXTENSIONS : List String :=
  [".mp4", ".avi", ".mov", ".mkv", ".webm", ".mp3", ".wav", ".m4a", ".aac", ".ogg"]

/-- ASCII lower-casing of one character (`str.lower` on extension text). -/
def lowerChar (c : Char) : Char :=
  if 'A' ≤ c ∧ c ≤ 'Z' then Char.ofNat (c.toNat + 32) else c

/-- ASCII lower-casing of a string. -/
def lowerStr (s : String) : String :=
  String.mk (s.toList.map lowerChar)

/-- `is_supported_file`: the lower-cased suffix is in the allow-list. -/
def is_supported_file (p : String) : Bool :=
  SUPPORTED_EXTENSIONS.contains (lowerStr (pySuffix p))

/-- `find_new_files`: given whether the inbox exists and its sorted
recursive listing of regular files (paths already resolved), keep the
supported files not yet in the tracker. A missing inbox yields the empty
list. -/
def find_new_files (inboxExists : Bool) (files : List String) (tr : Tracker) : List String :=
  if inboxExists then
    files.filter (fun p => is_supported_file p && !is_processed tr p)
  else []

/-- `is_file_stable`: the two `os.path.getsize` samples, each `none` when
the read raised OSError (in which case the code returns False via the
except branch; a failed first read short-circuits, which the match also
captures). Otherwise true iff the sizes agree and are positive. -/
def is_file_stable (r1 r2 : Option Nat) : Bool :=
  match r1, r2 with
  | some s1, some s2 => s1 == s2 && decide (0 < s2)
  | _, _ => false

/-- One cycle of `run_watcher`: scan, then for each candidate in order
probe stability; an unstable candidate is skipped without marking; a
stable one is processed and marked with the processor outcome (the
`except` branch that marks False is folded into `proc`). `stable` and
`proc` are the cycle's environment; `ts` the cycle's timestamp string. -/
def runCycle (files : List String) (stable proc : String → Bool) (ts : String)
    (trst : Tracker × Store) : Tracker × Store :=
  (find_new_files true files trst.1).foldl
    (fun acc p => if stable p then mark_processed acc.1 p ts (proc p) else acc) trst

end DriveWatcher

namespace ZoomClient

/-- The in-memory token state of `ZoomClient` (`_access_token`,
`_expires_at`). -/
structure ClientMem where
  access_token : String
  expires_at : Int
deriving DecidableEq

/-- One stored row of the `zoom_tokens` table, as read by
`get_zoom_token` and written by `save_zoom_token`. -/
structure TokenRow where
  access_token : String
  refresh_token : Option String
  expires_at : Int
  scopes : String
deriving DecidableEq

/-- The JSON body of a 200 response from the OAuth token endpoint
(`access_token` is mandatory in a success response; the other fields may
be omitted, which the code reads with `.get`). -/
structure RefreshOkData where
  access_token : String
  refresh_token : Option String
  expires_in : Option Int
  scope : Option String
deriving DecidableEq

/-- The HTTP response to the refresh POST: a status code plus the parsed
body (the body is only consulted when the status is 200). -/
structure HttpTokenResp where
  status : Nat
  data : RefreshOkData
deriving DecidableEq

/-- The observable outcome of `refresh_token`: its boolean return value,
the durable `zoom_tokens` row afterwards, the in-memory token afterwards,
and how many `save_zoom_token` writes were issued. -/
structure RefreshOutcome where
  ok : Bool
  db : Option TokenRow
  mem : ClientMem
  saves : Nat
deriving DecidableEq

/-- `ZoomClient.refresh_token`: fail fast when no stored row or no (or
falsy empty) stored refresh token; fail leaving everything untouched on a
non-200 exchange; on 200, build the new row (new refresh token falling
back to the stored one, expiry `now + expires_in` defaulting to 3600,
scopes falling back to the stored ones) and persist it with a single
`save_zoom_token` call, also updating the in-memory token. -/
def refresh_token (db : Option TokenRow) (resp : HttpTokenResp) (now : Int)
    (mem : ClientMem) : RefreshOutcome :=
  match db with
  | none => ⟨false, db, mem, 0⟩
  | some row =>
    match row.refresh_token with
    | none => ⟨false, db, mem, 0⟩
    | some rt =>
      if rt = "" then ⟨false, db, mem, 0⟩
      else if resp.status ≠ 200 then ⟨false, db, mem, 0⟩
      else
        let ea := now + resp.data.expires_in.getD 3600
        let newRow : TokenRow :=
          ⟨resp.data.access_token, some (resp.data.refresh_token.getD rt), ea,
            resp.data.scope.getD row.scopes⟩
        ⟨true, some newRow, ⟨resp.data.access_token, ea⟩, 1⟩

/-- `ZoomClient._ensure_token`: when `now > _expires_at - 60` run
`refresh_token` (its boolean result is ignored); otherwise do nothing.
Returns the in-memory token, the durable row, and whether a refresh was
attempted. -/
def ensure_token (now : Int) (mem : ClientMem) (db : Option TokenRow)
    (resp : HttpTokenResp) : ClientMem × Option TokenRow × Bool :=
  if mem.expires_at - 60 < now then
    let o := refresh_token db resp now mem
    (o.mem, o.db, true)
  else (mem, db, false)

/-- The authenticated GET that `_api_get` unconditionally issues after
`_ensure_token`: the bearer token used and, for reasoning, the expiry
stored alongside that token. -/
structure ApiRequest where
  bearer : String
  token_expires_at : Int
deriving DecidableEq

/-- `ZoomClient._api_get` up to the point the request is sent: run
`_ensure_token`, then send with whatever `_access_token` now holds —
also when the attempted refresh failed. Returns the request sent and the
post-call state. -/
def api_get (now : Int) (mem : ClientMem) (db : Option TokenRow)
    (resp : HttpTokenResp) : ApiRequest × ClientMem × Option TokenRow × Bool :=
  let e := ensure_token now mem db resp
  (⟨e.1.access_token, e.1.expires_at⟩, e.1, e.2.1, e.2.2)

/-- An HTTP fetch result: an error status (from `raise_for_status` /
`HTTPStatusError`) or a parsed value. -/
inductive HttpResult (α : Type)
  | err (status : Nat)
  | ok (a : α)
deriving DecidableEq

/-- One element of `recording_files` in the recording detail, with the
fields the code reads via `.get`. -/
structure RecFile where
  file_type : Option String
  recording_type : Option String
  download_url : Option String
deriving DecidableEq

/-- The recording detail JSON for a meeting (`recording_files` read with
`.get(..., [])`). -/
structure RecordingDetail where
  recording_files : List RecFile
deriving DecidableEq

/-- The dict returned by `get_meeting_transcript` on success. -/
structure Transcript where
  content : String
  download_url : String
  file_type : String
deriving DecidableEq

/-- The search over `recording_files` for the first transcript artifact. -/
def findTranscriptFile (files : List RecFile) : Option RecFile :=
  files.find? (fun f => f.file_type == some "TRANSCRIPT" || f.recording_type == some "audio_transcript")

/-- `ZoomClient.get_meeting_transcript`: a 404 on the recording-detail
fetch returns `none` (no transcript); any other detail error re-raises
(`Except.error`); with detail in hand, no transcript file or no
download URL returns `none`; an error on the content download raises; else
the transcript dict is returned. `detail` and `dl` are the two HTTP
responses. -/
def get_meeting_transcript (detail : HttpResult RecordingDetail)
    (dl : HttpResult String) : Except Nat (Option Transcript) :=
  match detail with
  | HttpResult.err s => if s = 404 then Except.ok none else Except.error s
  | HttpResult.ok d =>
    match findTranscriptFile d.recording_files with
    | none => Except.ok none
    | some f =>
      match f.download_url with
      | none => Except.ok none
      | some url =>
        match dl with
        | HttpResult.err s => Except.error s
        | HttpResult.ok content =>
          Except.ok (some ⟨content, url, f.file_type.getD "TRANSCRIPT"⟩)

end ZoomClient

namespace ZoomPoller

/-- The characters the first `re.sub` of `_sanitize_filename` replaces
with an underscore. -/
def isForbidden (c : Char) : Bool :=
  c == '<' || c == '>' || c == ':' || c == '"' || c == '/' ||
  c == '\\' || c == '|' || c == '?' || c == '*'

/-- Whitespace as matched by the sanitizer's `\s` and by `str.strip`
(modelled over the ASCII whitespace class). -/
def isWs (c : Char) : Bool :=
  c == ' ' || c == '\t' || c == '\n' || c == '\r' ||
  c == '\x0b' || c == '\x0c'

/-- Drop leading and trailing whitespace (`str.strip`). -/
def stripWs (l : List Char) : List Char :=
  ((l.dropWhile isWs).reverse.dropWhile isWs).reverse

/-- Replace each maximal whitespace run by a single hyphen
(the second `re.sub`, pattern whitespace-run to hyphen); the flag records
whether the previous character was part of a run. -/
def collapseWs : Bool → List Char → List Char
  | _, [] => []
  | prevWs, c :: rest =>
    if isWs c then
      if prevWs then collapseWs true rest
      else '-' :: collapseWs true rest
    else c :: collapseWs false rest

/-- The sanitize pipeline before the fallback: replace forbidden
characters by underscores, strip, collapse whitespace runs to hyphens,
truncate to 100 characters. -/
def sanitizeCore (name : String) : List Char :=
  (collapseWs false
    (stripWs (name.toList.map (fun c => if isForbidden c then '_' else c)))).take 100

/-- `_sanitize_filename`: the pipeline result, with the final
fallback to "untitled" when the truncated result is empty. -/
def sanitize_filename (name : String) : String :=
  if (sanitizeCore name).isEmpty then "untitled" else String.mk (sanitizeCore name)

/-- One listed meeting of the recordings response, with the fields the
poll loop reads via `.get`; `none` models a missing key (and a key
present with JSON null, which `.get` also surfaces as falsy None). -/
structure Meeting where
  uuid : Option String
  id : Option String
  topic : Option String
  start_time : Option String
  duration : Option Int
deriving DecidableEq

/-- The externally visible effects of the loop body for one listed
meeting: whether the recording detail was fetched, the local artifact
paths written, the S3 saves issued (path pair), and the uuid marked
processed (if any). -/
structure StepTrace where
  detailFetched : Bool
  localWrites : List String
  s3Writes : List (String × String)
  marked : Option String
deriving DecidableEq

/-- The body of the `for meeting in meetings` loop of `zoom_poll_loop`
for one meeting: skip (no effects) when the uuid is missing/empty or
already processed; otherwise fetch the transcript — an exception
propagates (`Except.error`), a missing transcript skips with no writes
and no marking, and a present transcript writes the VTT and metadata
under the dated topic directory, mirrors to S3 when configured, and marks
the uuid. -/
def pollMeetingStep (m : Meeting) (processed : List String)
    (detail : ZoomClient.HttpResult ZoomClient.RecordingDetail)
    (dl : ZoomClient.HttpResult String) (s3On : Bool) (todayStr bot : String) :
    Except Nat StepTrace :=
  let u := m.uuid.getD ""
  if u = "" || processed.contains u then Except.ok ⟨false, [], [], none⟩
  else
    match ZoomClient.get_meeting_transcript detail dl with
    | Except.error s => Except.error s
    | Except.ok none => Except.ok ⟨true, [], [], none⟩
    | Except.ok (some _) =>
      let topic := m.topic.getD "untitled"
      let st := m.start_time.getD ""
      let dateStr := if st = "" then todayStr else String.mk (st.toList.take 10)
      let dir := bot ++ "/zoom/" ++ dateStr ++ "/" ++ sanitize_filename topic
      Except.ok ⟨true,
        [dir ++ "/transcript.vtt", dir ++ "/metadata.json"],
        if s3On then [(dir, "transcript.vtt"), (dir, "metadata.json")] else [],
        some u⟩

end ZoomPoller

namespace TelegramBot

/-- Size lookup in an association list keyed by path (local files by
relative path; S3 objects by key), first binding wins. -/
def alookupN : List (String × Nat) → String → Option Nat
  | [], _ => none
  | (k, v) :: rest, p => if k = p then some v else alookupN rest p

/-- The relative path an S3 key maps to under a prefix string:
`key[len(pre):].lstrip('/')`. -/
def relOf (pre key : String) : String :=
  String.mk ((key.toList.drop pre.length).dropWhile (fun c => c = '/'))

/-- `_sync_s3_prefix_to_local` over the paginated listing: skip keys with
an empty relative path; skip keys whose local file exists with the same
size; download the rest. Returns the keys downloaded, in listing order. -/
def sync_s3_to_local (pre : String) (localFiles : List (String × Nat)) :
    List (String × Nat) → List String
  | [] => []
  | (key, size) :: rest =>
    if relOf pre key = "" then sync_s3_to_local pre localFiles rest
    else if alookupN localFiles (relOf pre key) = some size then
      sync_s3_to_local pre localFiles rest
    else key :: sync_s3_to_local pre localFiles rest

/-- `_sync_local_to_s3_prefix` over the recursive file listing (regular
files only, relative path and size): skip files whose key already exists
remotely with the same size; upload the rest. Returns the keys uploaded,
in listing order. -/
def sync_local_to_s3 (pre : String) (existing : List (String × Nat)) :
    List (String × Nat) → List String
  | [] => []
  | (rel, size) :: rest =>
    if alookupN existing (pre ++ rel) = some size then sync_local_to_s3 pre existing rest
    else (pre ++ rel) :: sync_local_to_s3 pre existing rest

/-- Modelled from the spec: the download set as claim C7 words it — the
remote objects absent locally or whose local size differs, with no
condition on the relative path being non-empty. Kept separate from
`sync_s3_to_local` for refinement comparison. -/
def claimDownloadSet (pre : String) (localFiles : List (String × Nat))
    (remote : List (String × Nat)) : List String :=
  (remote.filter (fun kv => !decide (alookupN localFiles (relOf pre kv.1) = some kv.2))).map
    (fun kv => kv.1)

end TelegramBot

open DriveWatcher ZoomClient ZoomPoller TelegramBot

theorem alookup_upsert_self (tr : Tracker) (p : String) (e : Entry) :
    alookup (upsert tr p e) p = some e := by
  induction tr with
  | nil => simp [upsert, alookup]
  | cons kv rest ih =>
    obtain ⟨k, v⟩ := kv
    by_cases h : k = p
    · simp [upsert, alookup, h]
    · simp [upsert, alookup, h, ih]

theorem alookup_upsert_ne (tr : Tracker) (p q : String) (e : Entry) (h : q ≠ p) :
    alookup (upsert tr p e) q = alookup tr q := by
  have hpq : ¬ p = q := fun hh => h hh.symm
  induction tr with
  | nil => simp [upsert, alookup, hpq]
  | cons kv rest ih =>
    obtain ⟨k, v⟩ := kv
    by_cases hk : k = p
    · subst hk
      simp [upsert, alookup, hpq]
    · simp [upsert, alookup, hk, ih]

/-- Claim C2: after mark_processed on any identity, reloading a fresh
ledger from the durable store the mark wrote (simulated restart) reports
the identity as processed: every mark is written through immediately and
survives reload. -/
theorem mark_processed_survives_reload (tr : Tracker) (p ts : String) (s : Bool) :
    is_processed (load (mark_processed tr p ts s).2) p = true := by
  simp [mark_processed, load, is_processed, alookup_upsert_self]

/-- Claim C8: a corrupt (JSONDecodeError) or unreadable (OSError) durable
store makes the constructor load an empty ledger, so is_processed is
false for every identity; load is total, so construction never raises. -/
theorem corrupt_store_loads_empty (p : String) :
    is_processed (load Store.corrupt) p = false ∧
    is_processed (load Store.unreadable) p = false := by
  simp [load, is_processed, alookup]

/-- Claim C3: is_file_stable returns true exactly when both size reads
succeed with equal positive sizes; a failed read on either sample yields
false (the OSError branch returns False instead of raising). -/
theorem is_file_stable_spec (r1 r2 : Option Nat) :
    (is_file_stable r1 r2 = true ↔ ∃ n, r1 = some n ∧ r2 = some n ∧ 0 < n) ∧
    is_file_stable none r2 = false ∧ is_file_stable r1 none = false := by
  refine ⟨?_, ?_, ?_⟩
  · cases r1 with
    | none => simp [is_file_stable]
    | some s1 =>
      cases r2 with
      | none => simp [is_file_stable]
      | some s2 =>
        simp only [is_file_stable, Bool.and_eq_true, beq_iff_eq, decide_eq_true_eq,
          Option.some.injEq]
        constructor
        · rintro ⟨h1, hpos⟩
          exact ⟨s2, h1, rfl, hpos⟩
        · rintro ⟨n, h1, h2, hpos⟩
          exact ⟨by omega, by omega⟩
  · simp [is_file_stable]
  · cases r1 <;> simp [is_file_stable]

theorem is_file_stable_spec_witness : is_file_stable (some 5) (some 5) = true :=
  (is_file_stable_spec (some 5) (some 5)).1.mpr ⟨5, rfl, rfl, by decide⟩

/-- Claim C1 counterexample: a file whose ledger entry has success = false
is NOT returned by the next scan cycle — the entry's mere presence blocks
re-listing exactly as a success entry would (second conjunct: without the
entry, the same file is listed), contradicting the claim that failed
files are re-listed as candidates every cycle. -/
theorem failed_entry_blocks_relisting_cex :
    find_new_files true ["/inbox/a.mp3"] [("/inbox/a.mp3", ⟨"t", false⟩)] = [] ∧
    find_new_files true ["/inbox/a.mp3"] [] = ["/inbox/a.mp3"] := by decide

theorem alookup_foldl_mark (stable proc : String → Bool) (ts p : String)
    (hp : stable p = false) (l : List String) :
    ∀ acc : Tracker × Store,
      alookup ((l.foldl
        (fun acc q => if stable q then mark_processed acc.1 q ts (proc q) else acc) acc).1) p
        = alookup acc.1 p := by
  induction l with
  | nil => intro acc; rfl
  | cons q rest ih =>
    intro acc
    simp only [List.foldl_cons]
    rw [ih]
    by_cases hq : stable q = true
    · have hpq : p ≠ q := by
        intro hh
        rw [hh, hq] at hp
        exact absurd hp (by simp)
      simp only [hq, if_pos, mark_processed]
      exact alookup_upsert_ne acc.1 q p ⟨ts, proc q⟩ hpq
    · simp only [Bool.not_eq_true] at hq
      simp [hq]

/-- Claim C1 amended: any ledger entry for an identity — success = false
included — excludes it from re-listing by the scanner; only unstable
files, which the cycle skips without writing any ledger entry, remain
listed on the next scan cycle. -/
theorem ledger_entry_blocks_relisting (ex : Bool) (files : List String)
    (stable proc : String → Bool) (ts : String) (trst : Tracker × Store)
    (p : String) (e : Entry) :
    (alookup trst.1 p = some e → p ∉ find_new_files ex files trst.1) ∧
    (stable p = false → p ∈ find_new_files true files trst.1 →
      p ∈ find_new_files true files (runCycle files stable proc ts trst).1) := by
  constructor
  · intro hmem hin
    cases ex with
    | false => simp [find_new_files] at hin
    | true =>
      simp only [find_new_files, if_pos, List.mem_filter] at hin
      have hproc : is_processed trst.1 p = true := by simp [is_processed, hmem]
      rw [hproc] at hin
      simp at hin
  · intro hp hin
    have hlk := alookup_foldl_mark stable proc ts p hp (find_new_files true files trst.1) trst
    simp only [find_new_files, if_pos, List.mem_filter] at hin ⊢
    obtain ⟨hmem, hq⟩ := hin
    refine ⟨hmem, ?_⟩
    have heq : is_processed (runCycle files stable proc ts trst).1 p
        = is_processed trst.1 p := by
      simp only [is_processed, runCycle]
      rw [hlk]
    rw [heq]
    exact hq

theorem ledger_entry_blocks_relisting_witness :
    ("/inbox/a.mp3" ∉
      find_new_files true ["/inbox/a.mp3"] [("/inbox/a.mp3", ⟨"t", false⟩)]) ∧
    ("/inbox/b.mp3" ∈ find_new_files true ["/inbox/b.mp3"]
      (runCycle ["/inbox/b.mp3"] (fun _ => false) (fun _ => false) "t"
        ([], Store.absent)).1) :=
  ⟨(ledger_entry_blocks_relisting true ["/inbox/a.mp3"] (fun _ => false) (fun _ => false)
      "t" ([("/inbox/a.mp3", ⟨"t", false⟩)], Store.absent) "/inbox/a.mp3"
      ⟨"t", false⟩).1 (by decide),
   (ledger_entry_blocks_relisting true ["/inbox/b.mp3"] (fun _ => false) (fun _ => false)
      "t" ([], Store.absent) "/inbox/b.mp3" ⟨"t", false⟩).2 rfl (by decide)⟩

/-- Claim C4 counterexample: with the stored token long expired and the
refresh failing (here: no stored refresh credentials; a rejected exchange
behaves identically), _api_get still sends the request bearing the stale
token, so a request is sent although now < expires_at - 60 fails. -/
theorem stale_token_request_cex :
    (ZoomClient.api_get 1000 ⟨"old", 0⟩ none ⟨500, ⟨"", none, none, none⟩⟩).1 =
      ⟨"old", (0:Int)⟩ ∧
    ¬ ((1000:Int) <
        (ZoomClient.api_get 1000 ⟨"old", 0⟩ none
          ⟨500, ⟨"", none, none, none⟩⟩).1.token_expires_at - 60) := by
  decide

theorem refresh_ok_state (db : Option TokenRow) (resp : HttpTokenResp) (now : Int)
    (mem : ClientMem) (h : (refresh_token db resp now mem).ok = true) :
    (refresh_token db resp now mem).mem.expires_at
      = now + resp.data.expires_in.getD 3600 ∧ resp.status = 200 := by
  unfold refresh_token at h ⊢
  match db with
  | none => simp at h
  | some row =>
    match hrow : row.refresh_token with
    | none => simp [hrow] at h
    | some rt =>
      simp only [hrow] at h ⊢
      by_cases he : rt = ""
      · simp [he] at h
      · by_cases hs : resp.status = 200
        · simp [he, hs]
        · simp [he, hs] at h

theorem refresh_fail_state (db : Option TokenRow) (resp : HttpTokenResp) (now : Int)
    (mem : ClientMem) (h : (refresh_token db resp now mem).ok = false) :
    (refresh_token db resp now mem).mem = mem
      ∧ (refresh_token db resp now mem).db = db := by
  unfold refresh_token at h ⊢
  match db with
  | none => simp
  | some row =>
    match hrow : row.refresh_token with
    | none => simp [hrow]
    | some rt =>
      simp only [hrow] at h ⊢
      by_cases he : rt = ""
      · simp [he]
      · by_cases hs : resp.status = 200
        · simp [he, hs] at h
        · simp [he, hs]

/-- Claim C4 amended: before each authenticated request, when
now > expires_at - 60 a refresh is attempted first; if the refresh
succeeds the request is sent with the refreshed token (expiry
now + expires_in), but if the refresh fails the request is still sent
with the previous, possibly stale token; when now ≤ expires_at - 60 no
refresh is attempted and the stored token is used. -/
theorem ensure_token_refresh_policy (now : Int) (mem : ClientMem)
    (db : Option TokenRow) (resp : HttpTokenResp) :
    (now ≤ mem.expires_at - 60 →
      (api_get now mem db resp).1 = ⟨mem.access_token, mem.expires_at⟩ ∧
      (api_get now mem db resp).2.2.2 = false) ∧
    (mem.expires_at - 60 < now →
      (api_get now mem db resp).2.2.2 = true ∧
      ((refresh_token db resp now mem).ok = true →
        (api_get now mem db resp).1.token_expires_at
          = now + resp.data.expires_in.getD 3600) ∧
      ((refresh_token db resp now mem).ok = false →
        (api_get now mem db resp).1 = ⟨mem.access_token, mem.expires_at⟩)) := by
  by_cases h : mem.expires_at - 60 < now
  · refine ⟨fun hle => absurd h (by omega), fun _ => ?_⟩
    refine ⟨by simp [api_get, ensure_token, h], ?_, ?_⟩
    · intro hok
      have := refresh_ok_state db resp now mem hok
      simp [api_get, ensure_token, h, this.1]
    · intro hfail
      have := refresh_fail_state db resp now mem hfail
      simp [api_get, ensure_token, h, this.1]
  · refine ⟨fun _ => ?_, fun hlt => absurd hlt h⟩
    simp [api_get, ensure_token, h]

theorem ensure_token_refresh_policy_witness :
    ((ZoomClient.api_get 0 ⟨"tok", 1000⟩ none ⟨500, ⟨"", none, none, none⟩⟩).1 =
        ⟨"tok", (1000:Int)⟩) ∧
    ((ZoomClient.api_get 1000 ⟨"old", 0⟩ none ⟨500, ⟨"", none, none, none⟩⟩).1 =
        ⟨"old", (0:Int)⟩) :=
  ⟨((ensure_token_refresh_policy 0 ⟨"tok", 1000⟩ none
      ⟨500, ⟨"", none, none, none⟩⟩).1 (by decide)).1,
   (((ensure_token_refresh_policy 1000 ⟨"old", 0⟩ none
      ⟨500, ⟨"", none, none, none⟩⟩).2 (by decide)).2.2 (by decide))⟩

/-- Claim C5: with a stored refresh credential, a non-200 exchange makes
refresh_token return failure with zero durable writes, leaving the stored
row and the in-memory token untouched; a 200 exchange returns success and
persists, in a single durable write, the new access token, the response's
refresh token (falling back to the stored one when omitted) and the new
expiry now + expires_in (default 3600). -/
theorem refresh_token_spec (row : TokenRow) (rt : String) (resp : HttpTokenResp)
    (now : Int) (mem : ClientMem) (hrt : row.refresh_token = some rt)
    (hne : rt ≠ "") :
    (resp.status ≠ 200 →
      refresh_token (some row) resp now mem = ⟨false, some row, mem, 0⟩) ∧
    (resp.status = 200 →
      refresh_token (some row) resp now mem =
        ⟨true,
         some ⟨resp.data.access_token, some (resp.data.refresh_token.getD rt),
               now + resp.data.expires_in.getD 3600, resp.data.scope.getD row.scopes⟩,
         ⟨resp.data.access_token, now + resp.data.expires_in.getD 3600⟩, 1⟩) := by
  constructor
  · intro hs
    simp [refresh_token, hrt, hne, hs]
  · intro hs
    simp [refresh_token, hrt, hne, hs]

theorem refresh_token_spec_witness :
    ZoomClient.refresh_token (some ⟨"a", some "r", 0, "s"⟩)
      ⟨500, ⟨"n", none, none, none⟩⟩ 7 ⟨"a", 0⟩ =
      ⟨false, some ⟨"a", some "r", 0, "s"⟩, ⟨"a", 0⟩, 0⟩ :=
  (refresh_token_spec ⟨"a", some "r", 0, "s"⟩ "r" ⟨500, ⟨"n", none, none, none⟩⟩
    7 ⟨"a", 0⟩ rfl (by decide)).1 (by decide)

/-- Claim C6: a 404 on the recording-detail fetch is treated as "no
transcript artifact" (get_meeting_transcript returns none instead of
raising); the per-meeting loop body then skips the item with zero
artifact writes and no ledger marking; any non-404 error class on the
detail fetch propagates out of the body. -/
theorem transcript_404_skip_spec (dl : ZoomClient.HttpResult String) (m : Meeting)
    (processed : List String) (s3On : Bool) (today bot : String) (s : Nat)
    (u : String) (hu : m.uuid = some u) (hne : u ≠ "")
    (hnp : processed.contains u = false) :
    ZoomClient.get_meeting_transcript (ZoomClient.HttpResult.err 404) dl
      = Except.ok none ∧
    pollMeetingStep m processed (ZoomClient.HttpResult.err 404) dl s3On today bot
      = Except.ok ⟨true, [], [], none⟩ ∧
    (s ≠ 404 →
      pollMeetingStep m processed (ZoomClient.HttpResult.err s) dl s3On today bot
        = Except.error s) := by
  have hnp2 : u ∉ processed := by simpa using hnp
  refine ⟨by simp [ZoomClient.get_meeting_transcript], ?_, ?_⟩
  · simp [pollMeetingStep, ZoomClient.get_meeting_transcript, hu, hne, hnp2]
  · intro hs
    simp [pollMeetingStep, ZoomClient.get_meeting_transcript, hu, hne, hnp2, hs]

theorem transcript_404_skip_spec_witness :
    pollMeetingStep ⟨some "B", none, none, none, none⟩ ["A"]
      (ZoomClient.HttpResult.err 404) (ZoomClient.HttpResult.err 0) false "d" "b"
      = Except.ok ⟨true, [], [], none⟩ ∧
    pollMeetingStep ⟨some "B", none, none, none, none⟩ ["A"]
      (ZoomClient.HttpResult.err 500) (ZoomClient.HttpResult.err 0) false "d" "b"
      = Except.error 500 :=
  ⟨(transcript_404_skip_spec (ZoomClient.HttpResult.err 0)
      ⟨some "B", none, none, none, none⟩ ["A"] false "d" "b" 500 "B" rfl (by decide)
      (by decide)).2.1,
   (transcript_404_skip_spec (ZoomClient.HttpResult.err 0)
      ⟨some "B", none, none, none, none⟩ ["A"] false "d" "b" 500 "B" rfl (by decide)
      (by decide)).2.2 (by decide)⟩

/-- Claim C9: a listed meeting whose uuid key is missing (or null) or
maps to the empty string is skipped entirely by the loop body: no
recording detail is fetched, no local or mirrored artifact is written,
and nothing is marked in the processed ledger. -/
theorem missing_uuid_skipped (m : Meeting) (processed : List String)
    (detail : ZoomClient.HttpResult ZoomClient.RecordingDetail)
    (dl : ZoomClient.HttpResult String) (s3On : Bool) (today bot : String)
    (h : m.uuid = none ∨ m.uuid = some "") :
    pollMeetingStep m processed detail dl s3On today bot
      = Except.ok ⟨false, [], [], none⟩ := by
  cases h with
  | inl h => simp [pollMeetingStep, h]
  | inr h => simp [pollMeetingStep, h]

theorem missing_uuid_skipped_witness :
    pollMeetingStep ⟨none, none, some "Standup", none, none⟩ []
      (ZoomClient.HttpResult.err 0) (ZoomClient.HttpResult.err 0) true "d" "b"
      = Except.ok ⟨false, [], [], none⟩ :=
  missing_uuid_skipped ⟨none, none, some "Standup", none, none⟩ []
    (ZoomClient.HttpResult.err 0) (ZoomClient.HttpResult.err 0) true "d" "b"
    (Or.inl rfl)

/-- Claim C7 counterexample: an S3 listing can contain an object at the
bare prefix key (a zero-length relative path, e.g. a folder marker); it
is absent locally, yet the download pass skips it, while the claim's
absent-or-size-differs rule (claimDownloadSet) says it must be fetched. -/
theorem download_empty_rel_cex :
    TelegramBot.sync_s3_to_local "p/" [] [("p/", 5)] = [] ∧
    TelegramBot.claimDownloadSet "p/" [] [("p/", 5)] = ["p/"] := by decide

/-- Claim C7 amended: an upload pass uploads exactly the local files
whose key is absent remotely or whose recorded remote size differs,
skipping same-size keys; a download pass fetches exactly the remote
objects whose relative path under the prefix is non-empty and that are
absent locally or whose local size differs. -/
theorem mirror_sync_characterization (pre : String)
    (localFiles existing remote localDir : List (String × Nat)) :
    TelegramBot.sync_s3_to_local pre localFiles remote =
      (remote.filter (fun kv => !decide (TelegramBot.relOf pre kv.1 = "") &&
        !decide (TelegramBot.alookupN localFiles (TelegramBot.relOf pre kv.1)
          = some kv.2))).map (fun kv => kv.1) ∧
    TelegramBot.sync_local_to_s3 pre existing localDir =
      (localDir.filter (fun kv =>
        !decide (TelegramBot.alookupN existing (pre ++ kv.1) = some kv.2))).map
        (fun kv => pre ++ kv.1) := by
  constructor
  · induction remote with
    | nil => rfl
    | cons kv rest ih =>
      obtain ⟨key, size⟩ := kv
      by_cases h1 : TelegramBot.relOf pre key = ""
      · simp [TelegramBot.sync_s3_to_local, h1, List.filter, ih]
      · by_cases h2 : TelegramBot.alookupN localFiles (TelegramBot.relOf pre key)
            = some size
        · simp [TelegramBot.sync_s3_to_local, h1, h2, List.filter, ih]
        · simp [TelegramBot.sync_s3_to_local, h1, h2, List.filter, ih]
  · induction localDir with
    | nil => rfl
    | cons kv rest ih =>
      obtain ⟨rel, size⟩ := kv
      by_cases h2 : TelegramBot.alookupN existing (pre ++ rel) = some size
      · simp [TelegramBot.sync_local_to_s3, h2, List.filter, ih]
      · simp [TelegramBot.sync_local_to_s3, h2, List.filter, ih]

theorem mem_dropWhileC (p : Char → Bool) (l : List Char) :
    ∀ c : Char, c ∈ l.dropWhile p → c ∈ l := by
  induction l with
  | nil => intro c h; exact h
  | cons d rest ih =>
    intro c h
    by_cases hd : p d = true
    · rw [List.dropWhile_cons, if_pos hd] at h
      exact List.mem_cons_of_mem d (ih c h)
    · rw [List.dropWhile_cons, if_neg hd] at h
      exact h

theorem dropWhileC_nil_of_all (p : Char → Bool) (l : List Char)
    (h : ∀ c ∈ l, p c = true) : l.dropWhile p = [] := by
  induction l with
  | nil => rfl
  | cons d rest ih =>
    rw [List.dropWhile_cons, if_pos (h d (List.mem_cons_self d rest))]
    exact ih (fun c hc => h c (List.mem_cons_of_mem d hc))

theorem mem_stripWs (l : List Char) (c : Char) (h : c ∈ stripWs l) : c ∈ l := by
  unfold stripWs at h
  rw [List.mem_reverse] at h
  have h2 := mem_dropWhileC isWs _ c h
  rw [List.mem_reverse] at h2
  exact mem_dropWhileC isWs l c h2

theorem mem_collapseWs (l : List Char) :
    ∀ (b : Bool) (c : Char), c ∈ collapseWs b l →
      c = '-' ∨ (c ∈ l ∧ isWs c = false) := by
  induction l with
  | nil => intro b c h; simp [collapseWs] at h
  | cons d rest ih =>
    intro b c h
    by_cases hd : isWs d = true
    · cases b with
      | true =>
        rw [collapseWs, if_pos hd, if_pos rfl] at h
        rcases ih true c h with h1 | ⟨h2, h3⟩
        · exact Or.inl h1
        · exact Or.inr ⟨List.mem_cons_of_mem d h2, h3⟩
      | false =>
        rw [collapseWs, if_pos hd, if_neg (by simp)] at h
        rcases List.mem_cons.mp h with h1 | h1
        · exact Or.inl h1
        · rcases ih true c h1 with h2 | ⟨h2, h3⟩
          · exact Or.inl h2
          · exact Or.inr ⟨List.mem_cons_of_mem d h2, h3⟩
    · rw [collapseWs, if_neg hd] at h
      rcases List.mem_cons.mp h with h1 | h1
      · subst h1
        exact Or.inr ⟨List.mem_cons_self c rest, by simpa using hd⟩
      · rcases ih false c h1 with h2 | ⟨h2, h3⟩
        · exact Or.inl h2
        · exact Or.inr ⟨List.mem_cons_of_mem d h2, h3⟩

theorem ws_not_forbidden (c : Char) (h : isWs c = true) : isForbidden c = false := by
  simp only [isWs, Bool.or_eq_true, beq_iff_eq] at h
  rcases h with ((((h | h) | h) | h) | h) | h <;> subst h <;> decide

theorem map_sanitize_no_forbidden (name : String) (c : Char)
    (h : c ∈ name.toList.map (fun c => if isForbidden c then '_' else c)) :
    isForbidden c = false := by
  rcases List.mem_map.mp h with ⟨a, _, rfl⟩
  by_cases hf : isForbidden a = true
  · rw [if_pos hf]; decide
  · rw [if_neg hf]
    simpa using hf

theorem sanitizeCore_nil_of_ws (name : String)
    (hws : ∀ c ∈ name.toList, isWs c = true) : sanitizeCore name = [] := by
  have hl1 : ∀ c ∈ name.toList.map (fun c => if isForbidden c then '_' else c),
      isWs c = true := by
    intro c hc
    rcases List.mem_map.mp hc with ⟨a, ha, rfl⟩
    have hwa := hws a ha
    rw [if_neg (by simp [ws_not_forbidden a hwa])]
    exact hwa
  have hstrip : stripWs (name.toList.map (fun c => if isForbidden c then '_' else c))
      = [] := by
    unfold stripWs
    rw [dropWhileC_nil_of_all isWs _ hl1]
    rfl
  rw [sanitizeCore, hstrip]
  rfl

/-- Claim C10: the sanitized topic directory name is non-empty, at most
100 characters, and contains no forbidden filesystem character and no
whitespace; an input that is empty or entirely whitespace yields
"untitled". -/
theorem sanitize_filename_spec (name : String) :
    0 < (sanitize_filename name).length ∧
    (sanitize_filename name).length ≤ 100 ∧
    (∀ c ∈ (sanitize_filename name).toList, isForbidden c = false ∧ isWs c = false) ∧
    ((∀ c ∈ name.toList, isWs c = true) → sanitize_filename name = "untitled") := by
  by_cases hemp : (sanitizeCore name).isEmpty = true
  · rw [sanitize_filename, if_pos hemp]
    exact ⟨by decide, by decide, by decide, fun _ => rfl⟩
  · rw [sanitize_filename, if_neg hemp]
    have hne : sanitizeCore name ≠ [] := by
      intro hh
      rw [hh] at hemp
      exact hemp rfl
    have hchars : ∀ c ∈ sanitizeCore name, isForbidden c = false ∧ isWs c = false := by
      intro c hc
      have hc3 : c ∈ collapseWs false (stripWs (name.toList.map
          (fun c => if isForbidden c then '_' else c))) := by
        rw [sanitizeCore] at hc
        exact List.take_subset 100 _ hc
      rcases mem_collapseWs _ false c hc3 with h1 | ⟨h2, h3⟩
      · subst h1
        exact ⟨by decide, by decide⟩
      · exact ⟨map_sanitize_no_forbidden name c (mem_stripWs _ c h2), h3⟩
    refine ⟨?_, ?_, ?_, ?_⟩
    · exact List.length_pos.mpr hne
    · rw [sanitizeCore]
      exact List.length_take_le 100 _
    · intro c hc
      exact hchars c hc
    · intro hws
      exact absurd (sanitizeCore_nil_of_ws name hws) hne

theorem sanitize_filename_spec_witness :
    sanitize_filename " \t " = "untitled" :=
  (sanitize_filename_spec " \t ").2.2.2 (by decide)
